import Mathlib

/-!
# Wakeguard core: shallow embedding and verification

A shallow embedding of the attentiveness-monitoring core of the repository
(`src/core/signals.py`, `src/core/state_machine.py`, `src/core/session.py`,
`src/core/alarms.py`) together with theorems settling the frozen claims.

Python floats are modelled as rationals (`ℚ`); Python `deque`s as `List`s
whose head is the left end (so `append` is `l ++ [x]` and `popleft` drops the
head); `None`-able values as `Option`; raised `RuntimeError`s as
`Except String`.
-/

namespace Wakeguard

/-! ## Signal scores (src/core/signals.py, `SignalScores`) -/

/-- Mirrors the `SignalScores` dataclass. -/
structure SignalScores where
  drowsiness_score : ℚ
  distraction_score : ℚ
  blink_rate_per_minute : ℚ
  long_blink_count : ℕ
  fraction_face_missing : ℚ
deriving DecidableEq, Repr

/-! ## Focus state machine (src/core/state_machine.py) -/

/-- Mirrors the `FocusState` enum. -/
inductive FocusState where
  | FOCUSED
  | DROWSY_WARNING
  | DROWSY_ALARM
  | DISTRACTED_WARNING
  | DISTRACTED_ALARM
deriving DecidableEq, Repr

/-- Mirrors the `FocusEventType` enum. -/
inductive FocusEventType where
  | ENTER_FOCUSED
  | ENTER_DROWSY_WARNING
  | ENTER_DROWSY_ALARM
  | ENTER_DISTRACTED_WARNING
  | ENTER_DISTRACTED_ALARM
deriving DecidableEq, Repr

/-- Mirrors the `FocusEvent` dataclass. -/
structure FocusEvent where
  timestamp : ℚ
  event_type : FocusEventType
  from_state : FocusState
  to_state : FocusState
  drowsiness_score : ℚ
  distraction_score : ℚ
deriving DecidableEq, Repr

/-- Mirrors the `StateParams` dataclass (field order as in the source). -/
structure StateParams where
  drowsy_warning_threshold : ℚ
  drowsy_alarm_threshold : ℚ
  distracted_warning_threshold : ℚ
  distracted_alarm_threshold : ℚ
  min_drowsy_warning_duration : ℚ
  min_drowsy_alarm_duration : ℚ
  min_distracted_warning_duration : ℚ
  min_distracted_alarm_duration : ℚ
  drowsy_recovery_threshold : ℚ
  distracted_recovery_threshold : ℚ
  recovery_grace_duration : ℚ
deriving DecidableEq, Repr

/-- The dataclass defaults of `StateParams`. -/
def defaultStateParams : StateParams :=
  ⟨60, 80, 60, 80, 3, 2, 3, 2, 40, 40, 3⟩

/-- Mutable state of `FocusStateMachine` (its `__init__` fields). -/
structure FocusStateMachine where
  params : StateParams
  state : FocusState
  last_timestamp : Option ℚ
  time_in_state : ℚ
  time_above_drowsy_warning : ℚ
  time_above_drowsy_alarm : ℚ
  time_above_distracted_warning : ℚ
  time_above_distracted_alarm : ℚ
  time_below_drowsy_recovery : ℚ
  time_below_distracted_recovery : ℚ
deriving DecidableEq, Repr

/-- `FocusStateMachine.__init__`. -/
def FocusStateMachine.init (params : StateParams) : FocusStateMachine :=
  ⟨params, .FOCUSED, none, 0, 0, 0, 0, 0, 0, 0⟩

/-- `FocusStateMachine._update_timers`: accumulate `dt` into each of the six
dwell timers whose score condition holds, resetting the others to zero. -/
def FocusStateMachine.updateTimers (m : FocusStateMachine) (dt : ℚ)
    (scores : SignalScores) : FocusStateMachine :=
  { m with
    time_above_drowsy_warning :=
      if scores.drowsiness_score ≥ m.params.drowsy_warning_threshold then
        m.time_above_drowsy_warning + dt
      else 0
    time_above_drowsy_alarm :=
      if scores.drowsiness_score ≥ m.params.drowsy_alarm_threshold then
        m.time_above_drowsy_alarm + dt
      else 0
    time_above_distracted_warning :=
      if scores.distraction_score ≥ m.params.distracted_warning_threshold then
        m.time_above_distracted_warning + dt
      else 0
    time_above_distracted_alarm :=
      if scores.distraction_score ≥ m.params.distracted_alarm_threshold then
        m.time_above_distracted_alarm + dt
      else 0
    time_below_drowsy_recovery :=
      if scores.drowsiness_score ≤ m.params.drowsy_recovery_threshold then
        m.time_below_drowsy_recovery + dt
      else 0
    time_below_distracted_recovery :=
      if scores.distraction_score ≤ m.params.distracted_recovery_threshold then
        m.time_below_distracted_recovery + dt
      else 0 }

/-- `FocusStateMachine._compute_next_state`: the per-state transition table. -/
def FocusStateMachine.computeNextState (m : FocusStateMachine)
    (scores : SignalScores) : FocusState :=
  match m.state with
  | .FOCUSED =>
      if scores.drowsiness_score ≥ m.params.drowsy_warning_threshold ∧
          m.time_above_drowsy_warning ≥ m.params.min_drowsy_warning_duration then
        .DROWSY_WARNING
      else if scores.distraction_score ≥ m.params.distracted_warning_threshold ∧
          m.time_above_distracted_warning ≥ m.params.min_distracted_warning_duration then
        .DISTRACTED_WARNING
      else .FOCUSED
  | .DROWSY_WARNING =>
      if scores.drowsiness_score ≥ m.params.drowsy_alarm_threshold ∧
          m.time_above_drowsy_alarm ≥ m.params.min_drowsy_alarm_duration then
        .DROWSY_ALARM
      else if scores.drowsiness_score ≤ m.params.drowsy_recovery_threshold ∧
          m.time_below_drowsy_recovery ≥ m.params.recovery_grace_duration then
        .FOCUSED
      else .DROWSY_WARNING
  | .DROWSY_ALARM =>
      if scores.drowsiness_score ≤ m.params.drowsy_recovery_threshold ∧
          m.time_below_drowsy_recovery ≥ m.params.recovery_grace_duration then
        .FOCUSED
      else .DROWSY_ALARM
  | .DISTRACTED_WARNING =>
      if scores.distraction_score ≥ m.params.distracted_alarm_threshold ∧
          m.time_above_distracted_alarm ≥ m.params.min_distracted_alarm_duration then
        .DISTRACTED_ALARM
      else if scores.distraction_score ≤ m.params.distracted_recovery_threshold ∧
          m.time_below_distracted_recovery ≥ m.params.recovery_grace_duration then
        .FOCUSED
      else .DISTRACTED_WARNING
  | .DISTRACTED_ALARM =>
      if scores.distraction_score ≤ m.params.distracted_recovery_threshold ∧
          m.time_below_distracted_recovery ≥ m.params.recovery_grace_duration then
        .FOCUSED
      else .DISTRACTED_ALARM

/-- `FocusStateMachine._event_type_for_state`. -/
def eventTypeForState : FocusState → FocusEventType
  | .FOCUSED => .ENTER_FOCUSED
  | .DROWSY_WARNING => .ENTER_DROWSY_WARNING
  | .DROWSY_ALARM => .ENTER_DROWSY_ALARM
  | .DISTRACTED_WARNING => .ENTER_DISTRACTED_WARNING
  | .DISTRACTED_ALARM => .ENTER_DISTRACTED_ALARM

/-- `FocusStateMachine.update`: one tick.  Returns the post-call machine, the
returned state and the optional transition event. -/
def FocusStateMachine.update (m : FocusStateMachine) (timestamp : ℚ)
    (scores : SignalScores) : FocusStateMachine × FocusState × Option FocusEvent :=
  let dt : ℚ :=
    match m.last_timestamp with
    | none => 0
    | some last => max 0 (timestamp - last)
  let m1 : FocusStateMachine :=
    FocusStateMachine.updateTimers
      { m with
        last_timestamp := some timestamp
        time_in_state := m.time_in_state + dt }
      dt scores
  let new_state := m1.computeNextState scores
  if new_state ≠ m1.state then
    (({ m1 with state := new_state, time_in_state := 0 }), new_state,
      some ⟨timestamp, eventTypeForState new_state, m1.state, new_state,
        scores.drowsiness_score, scores.distraction_score⟩)
  else
    (m1, m1.state, none)

/-- Run the machine over a list of `(timestamp, scores)` ticks, collecting the
returned `(state, event)` pairs. -/
def FocusStateMachine.run (m : FocusStateMachine) :
    List (ℚ × SignalScores) → FocusStateMachine × List (FocusState × Option FocusEvent)
  | [] => (m, [])
  | (t, s) :: rest =>
    let r := m.update t s
    let rr := r.1.run rest
    (rr.1, (r.2.1, r.2.2) :: rr.2)

/-! Basic facts about `update`. -/

theorem updateTimers_state (m : FocusStateMachine) (dt : ℚ) (s : SignalScores) :
    (m.updateTimers dt s).state = m.state := rfl

theorem updateTimers_params (m : FocusStateMachine) (dt : ℚ) (s : SignalScores) :
    (m.updateTimers dt s).params = m.params := rfl

/-- The state returned by `update` is `computeNextState` of the intermediate
(timer-updated) machine, whose `state` and `params` are those of `m`. -/
theorem update_result_state (m : FocusStateMachine) (t : ℚ) (s : SignalScores) :
    ∃ m1 : FocusStateMachine, m1.state = m.state ∧ m1.params = m.params ∧
      (m.update t s).2.1 = m1.computeNextState s := by
  unfold FocusStateMachine.update
  set dt : ℚ :=
    match m.last_timestamp with
    | none => 0
    | some last => max 0 (t - last) with hdt
  refine ⟨FocusStateMachine.updateTimers
      { m with last_timestamp := some t, time_in_state := m.time_in_state + dt }
      dt s, rfl, rfl, ?_⟩
  dsimp only
  split
  · rfl
  · next h =>
    rw [not_ne_iff] at h
    simpa using h.symm

/-! ### The hysteresis scenario of claim C1

Scores whose drowsiness component is held constant (all other components
zero) drive the machine from `FOCUSED`.  With the default parameters
(`drowsy_warning_threshold = 60`, `min_drowsy_warning_duration = 3`) the
machine's shape during such a hold is captured by `HoldInv`. -/

/-- A score snapshot with the drowsiness score `d` and everything else zero. -/
def constScores (d : ℚ) : SignalScores := ⟨d, 0, 0, 0, 0⟩

/-- The transition event emitted when a drowsiness hold at 60 first reaches
three seconds of dwell, at time `t`. -/
def dwEvent (t : ℚ) : FocusEvent :=
  ⟨t, .ENTER_DROWSY_WARNING, .FOCUSED, .DROWSY_WARNING, 60, 0⟩

/-- Machine shape after a run of updates with scores `constScores 60` under
the default parameters: the hold started at time `t0` (the last update at a
smaller dwell, or the first update of the run) and the latest update was at
time `t`.  `time_in_state` is left unconstrained: the transition logic never
reads it. -/
structure HoldInv (m : FocusStateMachine) (t0 t : ℚ) : Prop where
  params : m.params = defaultStateParams
  state : m.state = if (3:ℚ) ≤ t - t0 then .DROWSY_WARNING else .FOCUSED
  last : m.last_timestamp = some t
  adw : m.time_above_drowsy_warning = t - t0
  ada : m.time_above_drowsy_alarm = 0
  atw : m.time_above_distracted_warning = 0
  ata : m.time_above_distracted_alarm = 0
  bdr : m.time_below_drowsy_recovery = 0
  bsr : m.time_below_distracted_recovery = t - t0

/-- The very first update of a fresh machine with drowsiness 60 establishes
the hold invariant (dwell zero) and reports `FOCUSED` with no event. -/
theorem holdInv_first (t0 : ℚ) :
    HoldInv ((FocusStateMachine.init defaultStateParams).update t0 (constScores 60)).1 t0 t0 ∧
      ((FocusStateMachine.init defaultStateParams).update t0 (constScores 60)).2.1 = .FOCUSED ∧
      ((FocusStateMachine.init defaultStateParams).update t0 (constScores 60)).2.2 = none := by
  refine ⟨⟨?_, ?_, ?_, ?_, ?_, ?_, ?_, ?_, ?_⟩, ?_, ?_⟩ <;>
    simp [FocusStateMachine.update, FocusStateMachine.updateTimers,
      FocusStateMachine.computeNextState, FocusStateMachine.init,
      constScores, defaultStateParams] <;> norm_num

/-- One further update with drowsiness 60 at a later time `t'` preserves the
hold invariant; the returned state is `DROWSY_WARNING` exactly when the dwell
`t' - t0` has reached 3, and the `ENTER_DROWSY_WARNING` event fires exactly on
the crossing step. -/
theorem holdInv_step {m : FocusStateMachine} {t0 t : ℚ} (inv : HoldInv m t0 t)
    {t' : ℚ} (ht : t ≤ t') :
    HoldInv (m.update t' (constScores 60)).1 t0 t' ∧
      (m.update t' (constScores 60)).2.1 =
        (if (3:ℚ) ≤ t' - t0 then .DROWSY_WARNING else .FOCUSED) ∧
      (m.update t' (constScores 60)).2.2 =
        (if (3:ℚ) ≤ t' - t0 ∧ ¬ (3:ℚ) ≤ t - t0 then some (dwEvent t') else none) := by
  obtain ⟨p, st, lt, tis, a1, a2, a3, a4, a5, a6⟩ := m
  obtain ⟨hp, hs, hl, h1, h2, h3, h4, h5, h6⟩ := inv
  dsimp only at hp hs hl h1 h2 h3 h4 h5 h6
  subst hp hs hl h1 h2 h3 h4 h5 h6
  have hdt : max 0 (t' - t) = t' - t := max_eq_right (by linarith)
  by_cases hc : (3:ℚ) ≤ t - t0
  · have hc' : (3:ℚ) ≤ t' - t0 := by linarith
    refine ⟨⟨?_, ?_, ?_, ?_, ?_, ?_, ?_, ?_, ?_⟩, ?_, ?_⟩ <;>
      simp [FocusStateMachine.update, FocusStateMachine.updateTimers,
        FocusStateMachine.computeNextState, constScores, defaultStateParams,
        eventTypeForState, hdt, hc, hc'] <;> norm_num
  · by_cases hc' : (3:ℚ) ≤ t' - t0
    · refine ⟨⟨?_, ?_, ?_, ?_, ?_, ?_, ?_, ?_, ?_⟩, ?_, ?_⟩ <;>
        simp [FocusStateMachine.update, FocusStateMachine.updateTimers,
          FocusStateMachine.computeNextState, constScores, defaultStateParams,
          eventTypeForState, dwEvent, hdt, hc, hc'] <;> norm_num
    · refine ⟨⟨?_, ?_, ?_, ?_, ?_, ?_, ?_, ?_, ?_⟩, ?_, ?_⟩ <;>
        simp [FocusStateMachine.update, FocusStateMachine.updateTimers,
          FocusStateMachine.computeNextState, constScores, defaultStateParams,
          eventTypeForState, hdt, hc, hc'] <;> norm_num

/-- Closed form of the per-update outputs during a drowsiness hold at 60:
one output per timestamp, `tprev` being the time of the preceding update. -/
def holdOut (t0 : ℚ) : ℚ → List ℚ → List (FocusState × Option FocusEvent)
  | _, [] => []
  | tprev, t :: rest =>
    ((if (3:ℚ) ≤ t - t0 then .DROWSY_WARNING else .FOCUSED),
      if (3:ℚ) ≤ t - t0 ∧ ¬ (3:ℚ) ≤ tprev - t0 then some (dwEvent t) else none) ::
      holdOut t0 t rest

/-- Running the hold phase from any machine satisfying the invariant produces
exactly `holdOut`, and re-establishes the invariant at the last timestamp. -/
theorem run_hold {m : FocusStateMachine} {t0 tprev : ℚ} (inv : HoldInv m t0 tprev)
    (ts : List ℚ) (hts : List.Chain' (· ≤ ·) (tprev :: ts)) :
    (m.run (ts.map fun t => (t, constScores 60))).2 = holdOut t0 tprev ts ∧
      HoldInv (m.run (ts.map fun t => (t, constScores 60))).1 t0
        ((tprev :: ts).getLast (List.cons_ne_nil _ _)) := by
  induction ts generalizing m tprev with
  | nil => exact ⟨rfl, inv⟩
  | cons t rest ih =>
    rw [List.chain'_cons] at hts
    obtain ⟨inv', hstate, hevent⟩ := holdInv_step inv hts.1
    have hrec := ih inv' hts.2
    refine ⟨?_, ?_⟩
    · simp only [List.map_cons, FocusStateMachine.run, holdOut]
      rw [hstate, hevent, hrec.1]
    · rw [List.getLast_cons (List.cons_ne_nil _ _)]
      simpa only [List.map_cons, FocusStateMachine.run] using hrec.2

/-- During the hold, once the dwell has already reached 3 at the previous
update, every further output is `DROWSY_WARNING` with no event. -/
theorem holdOut_all_high (t0 : ℚ) {tprev : ℚ} (hp : (3:ℚ) ≤ tprev - t0)
    {ts : List ℚ} (hts : List.Chain' (· ≤ ·) (tprev :: ts)) :
    holdOut t0 tprev ts =
      ts.map fun _ => ((.DROWSY_WARNING : FocusState), (none : Option FocusEvent)) := by
  induction ts generalizing tprev with
  | nil => rfl
  | cons t rest ih =>
    rw [List.chain'_cons] at hts
    have h3 : (3:ℚ) ≤ t - t0 := by linarith [hts.1]
    simp only [holdOut, List.map_cons]
    rw [if_pos h3, if_neg (by simp [hp]), ih h3 hts.2]

/-- If no timestamp of the hold reaches dwell 3, every output is `FOCUSED`
with no event. -/
theorem holdOut_all_low (t0 tprev : ℚ) {ts : List ℚ}
    (h : ∀ x ∈ ts, ¬ (3:ℚ) ≤ x - t0) :
    holdOut t0 tprev ts =
      ts.map fun _ => ((.FOCUSED : FocusState), (none : Option FocusEvent)) := by
  induction ts generalizing tprev with
  | nil => rfl
  | cons t rest ih =>
    have ht := h t (List.mem_cons_self _ _)
    simp only [holdOut, List.map_cons]
    rw [if_neg ht, if_neg (by simp [ht]),
      ih _ (fun x hx => h x (List.mem_cons_of_mem _ hx))]

/-- If the hold starts below dwell 3 and some timestamp reaches it, the output
splits: `FOCUSED`/no event strictly before the first crossing, a single
`ENTER_DROWSY_WARNING` event exactly at the crossing, and `DROWSY_WARNING`/no
event afterwards. -/
theorem holdOut_split (t0 : ℚ) {tprev : ℚ} (hp : ¬ (3:ℚ) ≤ tprev - t0)
    {ts : List ℚ} (hts : List.Chain' (· ≤ ·) (tprev :: ts))
    (hex : ∃ x ∈ ts, (3:ℚ) ≤ x - t0) :
    ∃ l1 th l2, ts = l1 ++ th :: l2 ∧ (∀ x ∈ l1, x - t0 < 3) ∧ (3:ℚ) ≤ th - t0 ∧
      holdOut t0 tprev ts =
        (l1.map fun _ => ((.FOCUSED : FocusState), (none : Option FocusEvent))) ++
          (.DROWSY_WARNING, some (dwEvent th)) ::
            (l2.map fun _ => ((.DROWSY_WARNING : FocusState), (none : Option FocusEvent))) := by
  induction ts generalizing tprev with
  | nil => simp at hex
  | cons t rest ih =>
    rw [List.chain'_cons] at hts
    by_cases h3 : (3:ℚ) ≤ t - t0
    · refine ⟨[], t, rest, rfl, by simp, h3, ?_⟩
      simp only [holdOut, List.map_nil, List.nil_append]
      rw [if_pos h3, if_pos ⟨h3, hp⟩, holdOut_all_high t0 h3 hts.2]
    · obtain ⟨x, hx, hx3⟩ := hex
      rcases List.mem_cons.mp hx with rfl | hx'
      · exact absurd hx3 h3
      · obtain ⟨l1, th, l2, heq, hlow, hth, hout⟩ := ih h3 hts.2 ⟨x, hx', hx3⟩
        refine ⟨t :: l1, th, l2, by rw [heq, List.cons_append], ?_, hth, ?_⟩
        · intro y hy
          rcases List.mem_cons.mp hy with rfl | hy'
          · linarith [not_le.mp h3]
          · exact hlow y hy'
        · simp only [holdOut, List.map_cons, List.cons_append]
          rw [if_neg h3, if_neg (by simp [h3]), hout]

/-- A machine sitting in `FOCUSED` under the default parameters stays in
`FOCUSED`, with no event, on any update whose scores are all zero. -/
theorem focused_step {m : FocusStateMachine} (hp : m.params = defaultStateParams)
    (hs : m.state = .FOCUSED) (t : ℚ) :
    (m.update t (constScores 0)).1.state = .FOCUSED ∧
      (m.update t (constScores 0)).1.params = defaultStateParams ∧
      (m.update t (constScores 0)).2.1 = .FOCUSED ∧
      (m.update t (constScores 0)).2.2 = none := by
  obtain ⟨p, st, lt, tis, a1, a2, a3, a4, a5, a6⟩ := m
  dsimp only at hp hs
  subst hp hs
  refine ⟨?_, ?_, ?_, ?_⟩ <;>
    cases lt <;>
    simp [FocusStateMachine.update, FocusStateMachine.updateTimers,
      FocusStateMachine.computeNextState, constScores, defaultStateParams] <;>
    norm_num

/-- Running any all-zero-score tail from a `FOCUSED` machine keeps every
reported state `FOCUSED` and emits no event. -/
theorem run_focused {m : FocusStateMachine} (hp : m.params = defaultStateParams)
    (hs : m.state = .FOCUSED) (ts : List ℚ) :
    (m.run (ts.map fun t => (t, constScores 0))).2 =
      ts.map fun _ => ((.FOCUSED : FocusState), (none : Option FocusEvent)) := by
  induction ts generalizing m with
  | nil => rfl
  | cons t rest ih =>
    obtain ⟨h1, h2, h3, h4⟩ := focused_step hp hs t
    simp only [List.map_cons, FocusStateMachine.run]
    rw [h3, h4, ih h2 h1]

/-- Runs compose over list append. -/
theorem run_append (m : FocusStateMachine) (l1 l2 : List (ℚ × SignalScores)) :
    m.run (l1 ++ l2) =
      (((m.run l1).1.run l2).1, (m.run l1).2 ++ ((m.run l1).1.run l2).2) := by
  induction l1 generalizing m with
  | nil => rfl
  | cons a rest ih =>
    obtain ⟨t, s⟩ := a
    simp only [List.cons_append, FocusStateMachine.run, ih, List.append_eq]

/-- In a `≤`-chain, every member is at most the last element. -/
theorem mem_le_getLast :
    ∀ (l : List ℚ), List.Chain' (· ≤ ·) l → ∀ (h : l ≠ []) (x : ℚ), x ∈ l →
      x ≤ l.getLast h := by
  intro l
  induction l with
  | nil => intro _ h; exact absurd rfl h
  | cons a rest ih =>
    intro hl h x hx
    cases rest with
    | nil =>
      rw [List.mem_singleton] at hx
      simp [hx]
    | cons b rest' =>
      rw [List.chain'_cons] at hl
      rw [List.getLast_cons (List.cons_ne_nil _ _)]
      rcases List.mem_cons.mp hx with rfl | hx'
      · exact le_trans hl.1
          (ih hl.2 (List.cons_ne_nil _ _) b (List.mem_cons_self _ _))
      · exact ih hl.2 (List.cons_ne_nil _ _) x hx'

/-- `run` on a cons, spelled out. -/
theorem run_cons (m : FocusStateMachine) (t : ℚ) (s : SignalScores)
    (l : List (ℚ × SignalScores)) :
    m.run ((t, s) :: l) =
      (((m.update t s).1.run l).1,
        ((m.update t s).2.1, (m.update t s).2.2) :: ((m.update t s).1.run l).2) := rfl

/-- C1: start the machine fresh with the default parameters
(`drowsy_warning_threshold = 60`, `min_drowsy_warning_duration = 3`) and feed
it updates at non-decreasing timestamps `ts1` with the drowsiness score held
at exactly 60, then updates at timestamps `ts2` with the score dropped to 0.
If the hold lasts strictly less than 3 seconds, no update of the whole run
ever returns `DROWSY_WARNING`.  If the hold lasts at least 3 seconds, the
outputs of the hold split around the first update `th` whose elapsed time
since the start of the hold — which is exactly the machine's accumulated
`time_above_drowsy_warning` dwell timer at that call — reaches 3: every
earlier update returns `FOCUSED` with no event, the update at `th` returns
`DROWSY_WARNING` emitting the single `ENTER_DROWSY_WARNING` event of the run,
and every later update returns `DROWSY_WARNING` with no event, so the machine
transitions to `DROWSY_WARNING` exactly once. -/
theorem C1_drowsy_warning_hysteresis (ts1 ts2 : List ℚ) (h1 : ts1 ≠ [])
    (hchain : List.Chain' (· ≤ ·) (ts1 ++ ts2)) :
    (ts1.getLast h1 - ts1.head h1 < 3 →
      ∀ o ∈ ((FocusStateMachine.init defaultStateParams).run
          ((ts1.map fun t => (t, constScores 60)) ++
            (ts2.map fun t => (t, constScores 0)))).2,
        o.1 ≠ FocusState.DROWSY_WARNING) ∧
    ((3:ℚ) ≤ ts1.getLast h1 - ts1.head h1 →
      ∃ l1 th l2, ts1 = l1 ++ th :: l2 ∧
        (∀ x ∈ l1, x - ts1.head h1 < 3) ∧ (3:ℚ) ≤ th - ts1.head h1 ∧
        ((FocusStateMachine.init defaultStateParams).run
            (ts1.map fun t => (t, constScores 60))).2 =
          (l1.map fun _ => (FocusState.FOCUSED, (none : Option FocusEvent))) ++
            (FocusState.DROWSY_WARNING, some (dwEvent th)) ::
              (l2.map fun _ =>
                (FocusState.DROWSY_WARNING, (none : Option FocusEvent)))) := by
  obtain ⟨t0, ts1', rfl⟩ : ∃ a l, ts1 = a :: l := by
    cases ts1 with
    | nil => exact absurd rfl h1
    | cons a l => exact ⟨a, l, rfl⟩
  have hchain1 : List.Chain' (· ≤ ·) (t0 :: ts1') :=
    ((List.chain'_append).mp hchain).1
  have hfirst := holdInv_first t0
  have hhold := run_hold hfirst.1 ts1' hchain1
  have houts1 : ((FocusStateMachine.init defaultStateParams).run
      ((t0 :: ts1').map fun t => (t, constScores 60))).2 =
      (FocusState.FOCUSED, (none : Option FocusEvent)) :: holdOut t0 t0 ts1' := by
    rw [List.map_cons, run_cons, hfirst.2.1, hfirst.2.2, hhold.1]
  have hmach : ((FocusStateMachine.init defaultStateParams).run
      ((t0 :: ts1').map fun t => (t, constScores 60))).1 =
      (((FocusStateMachine.init defaultStateParams).update t0
        (constScores 60)).1.run (ts1'.map fun t => (t, constScores 60))).1 := by
    rw [List.map_cons, run_cons]
  constructor
  · intro hlt o ho
    simp only [List.head_cons] at hlt
    have hlt' : (t0 :: ts1').getLast (List.cons_ne_nil _ _) - t0 < 3 := hlt
    have hlow : ∀ x ∈ ts1', ¬ (3:ℚ) ≤ x - t0 := by
      intro x hx hcon
      have hxle := mem_le_getLast _ hchain1 (List.cons_ne_nil _ _) x
        (List.mem_cons_of_mem _ hx)
      linarith
    rw [run_append] at ho
    have hst : (((FocusStateMachine.init defaultStateParams).run
        ((t0 :: ts1').map fun t => (t, constScores 60))).1).state =
        FocusState.FOCUSED := by
      rw [hmach, hhold.2.state, if_neg (not_le.mpr hlt')]
    have hpm : (((FocusStateMachine.init defaultStateParams).run
        ((t0 :: ts1').map fun t => (t, constScores 60))).1).params =
        defaultStateParams := by
      rw [hmach]
      exact hhold.2.params
    rw [houts1, holdOut_all_low t0 t0 hlow, run_focused hpm hst] at ho
    simp only [List.mem_append, List.mem_cons, List.mem_map] at ho
    rcases ho with (rfl | ⟨y, _, rfl⟩) | ⟨y, _, rfl⟩ <;> simp
  · intro hge
    simp only [List.head_cons] at hge ⊢
    have hge' : (3:ℚ) ≤ (t0 :: ts1').getLast (List.cons_ne_nil _ _) - t0 := hge
    have hex : ∃ x ∈ ts1', (3:ℚ) ≤ x - t0 := by
      have hmem := List.getLast_mem (l := t0 :: ts1') (List.cons_ne_nil _ _)
      rcases List.mem_cons.mp hmem with heq | hin
      · rw [heq] at hge'
        norm_num at hge'
      · exact ⟨_, hin, hge'⟩
    obtain ⟨l1, th, l2, heq, hlow, hth, hout⟩ :=
      holdOut_split t0 (by norm_num) hchain1 hex
    refine ⟨t0 :: l1, th, l2, by rw [heq, List.cons_append], ?_, hth, ?_⟩
    · intro y hy
      rcases List.mem_cons.mp hy with rfl | hy'
      · norm_num
      · exact hlow y hy'
    · rw [houts1, hout, List.map_cons, List.cons_append]

/-- Witness for C1 at a concrete input: hold the score at 60 at times 0 and 2
(dwell 2 < 3), then drop to 0 at time 5; the run never reports
`DROWSY_WARNING`. -/
theorem C1_drowsy_warning_hysteresis_witness :
    (([0, 2] : List ℚ).getLast (by simp) - ([0, 2] : List ℚ).head (by simp) < 3 →
      ∀ o ∈ ((FocusStateMachine.init defaultStateParams).run
          ((([0, 2] : List ℚ).map fun t => (t, constScores 60)) ++
            (([5] : List ℚ).map fun t => (t, constScores 0)))).2,
        o.1 ≠ FocusState.DROWSY_WARNING) ∧
    ((3:ℚ) ≤ ([0, 2] : List ℚ).getLast (by simp) - ([0, 2] : List ℚ).head (by simp) →
      ∃ l1 th l2, ([0, 2] : List ℚ) = l1 ++ th :: l2 ∧
        (∀ x ∈ l1, x - ([0, 2] : List ℚ).head (by simp) < 3) ∧
        (3:ℚ) ≤ th - ([0, 2] : List ℚ).head (by simp) ∧
        ((FocusStateMachine.init defaultStateParams).run
            (([0, 2] : List ℚ).map fun t => (t, constScores 60))).2 =
          (l1.map fun _ => (FocusState.FOCUSED, (none : Option FocusEvent))) ++
            (FocusState.DROWSY_WARNING, some (dwEvent th)) ::
              (l2.map fun _ =>
                (FocusState.DROWSY_WARNING, (none : Option FocusEvent)))) :=
  C1_drowsy_warning_hysteresis [0, 2] [5] (by simp)
    (by norm_num [List.chain'_cons, List.chain'_singleton])

/-- The transition table moves within its branch or to `FOCUSED`, never across
branches. -/
theorem computeNextState_succ (m : FocusStateMachine) (s : SignalScores) :
    m.computeNextState s = m.state ∨ m.computeNextState s = .FOCUSED ∨
      (m.state = .FOCUSED ∧ (m.computeNextState s = .DROWSY_WARNING ∨
        m.computeNextState s = .DISTRACTED_WARNING)) ∨
      (m.state = .DROWSY_WARNING ∧ m.computeNextState s = .DROWSY_ALARM) ∨
      (m.state = .DISTRACTED_WARNING ∧ m.computeNextState s = .DISTRACTED_ALARM) := by
  cases hst : m.state <;>
    simp only [FocusStateMachine.computeNextState, hst] <;>
    split_ifs <;> simp

/-- C2: a step of the state machine starting in `DROWSY_WARNING` or
`DROWSY_ALARM` never returns a `DISTRACTED_*` state, and symmetrically; the
only way out of an Alarm/Warning branch is to `FOCUSED` (the sole other moves
being staying put or escalating Warning to Alarm within the same branch).  In
particular `DROWSY_ALARM` never steps directly to `DISTRACTED_ALARM`, whatever
the distraction score. -/
theorem C2_branch_isolation (m : FocusStateMachine) (t : ℚ) (s : SignalScores)
    (h : m.state = .DROWSY_WARNING ∨ m.state = .DROWSY_ALARM ∨
      m.state = .DISTRACTED_WARNING ∨ m.state = .DISTRACTED_ALARM) :
    (m.update t s).2.1 = m.state ∨ (m.update t s).2.1 = .FOCUSED ∨
      (m.state = .DROWSY_WARNING ∧ (m.update t s).2.1 = .DROWSY_ALARM) ∨
      (m.state = .DISTRACTED_WARNING ∧ (m.update t s).2.1 = .DISTRACTED_ALARM) := by
  obtain ⟨m1, hs, _, he⟩ := update_result_state m t s
  rw [he]
  have hsucc := computeNextState_succ m1 s
  rw [hs] at hsucc
  rcases h with h | h | h | h <;> rw [h] at hsucc ⊢ <;>
    rcases hsucc with h1 | h1 | ⟨h1, _⟩ | ⟨h1, h2⟩ | ⟨h1, h2⟩ <;>
    simp_all

/-- Witness for C2: a machine sitting in `DROWSY_ALARM`, fed a maximal
distraction score, stays in `DROWSY_ALARM` (and in particular does not cross
to a distracted state). -/
theorem C2_branch_isolation_witness :
    (FocusStateMachine.update
        ⟨defaultStateParams, .DROWSY_ALARM, some 0, 0, 0, 0, 0, 0, 0, 0⟩ 1
        ⟨0, 100, 0, 0, 0⟩).2.1 =
      (⟨defaultStateParams, .DROWSY_ALARM, some 0, 0, 0, 0, 0, 0, 0, 0⟩ :
        FocusStateMachine).state ∨
    (FocusStateMachine.update
        ⟨defaultStateParams, .DROWSY_ALARM, some 0, 0, 0, 0, 0, 0, 0, 0⟩ 1
        ⟨0, 100, 0, 0, 0⟩).2.1 = .FOCUSED ∨
    ((⟨defaultStateParams, .DROWSY_ALARM, some 0, 0, 0, 0, 0, 0, 0, 0⟩ :
        FocusStateMachine).state = .DROWSY_WARNING ∧
      (FocusStateMachine.update
        ⟨defaultStateParams, .DROWSY_ALARM, some 0, 0, 0, 0, 0, 0, 0, 0⟩ 1
        ⟨0, 100, 0, 0, 0⟩).2.1 = .DROWSY_ALARM) ∨
    ((⟨defaultStateParams, .DROWSY_ALARM, some 0, 0, 0, 0, 0, 0, 0, 0⟩ :
        FocusStateMachine).state = .DISTRACTED_WARNING ∧
      (FocusStateMachine.update
        ⟨defaultStateParams, .DROWSY_ALARM, some 0, 0, 0, 0, 0, 0, 0, 0⟩ 1
        ⟨0, 100, 0, 0, 0⟩).2.1 = .DISTRACTED_ALARM) :=
  C2_branch_isolation
    ⟨defaultStateParams, .DROWSY_ALARM, some 0, 0, 0, 0, 0, 0, 0, 0⟩ 1
    ⟨0, 100, 0, 0, 0⟩ (by decide)

/-! ## Alarm cooldown gate (src/core/alarms.py) -/

/-- Mirrors the `AlarmKind` enum. -/
inductive AlarmKind where
  | DROWSY
  | DISTRACTED
deriving DecidableEq, Repr

/-- Mirrors the `AlarmConfig` dataclass. -/
structure AlarmConfig where
  cooldown_seconds : ℚ
deriving DecidableEq, Repr

/-- Mutable state of `AlarmController`.  The Python source initialises the
last-alarm time of each kind to `float("-inf")`; here `none` models that minus
infinity: `timestamp - (-inf)` is `+inf` in the source, which clears any
finite cooldown, so a `none` entry always fires. -/
structure AlarmController where
  config : AlarmConfig
  last_alarm_time : AlarmKind → Option ℚ

/-- `AlarmController.__init__`: both kinds start at minus infinity (`none`). -/
def AlarmController.init (config : AlarmConfig) : AlarmController :=
  ⟨config, fun _ => none⟩

/-- `AlarmController._alarm_kind_for_event`. -/
def alarmKindForEvent (event : FocusEvent) : Option AlarmKind :=
  if event.event_type = .ENTER_DROWSY_ALARM then some .DROWSY
  else if event.event_type = .ENTER_DISTRACTED_ALARM then some .DISTRACTED
  else none

/-- `AlarmController.process_event`: returns the post-call controller together
with the optional fired kind.  The Python guard is `delta <
cooldown_seconds → return None`; with a `none` (minus-infinity) entry the
delta is `+inf` and the guard never triggers. -/
def AlarmController.process_event (c : AlarmController) (event : FocusEvent) :
    AlarmController × Option AlarmKind :=
  match alarmKindForEvent event with
  | none => (c, none)
  | some kind =>
    match c.last_alarm_time kind with
    | none =>
      ({ c with last_alarm_time :=
          fun k => if k = kind then some event.timestamp else c.last_alarm_time k },
        some kind)
    | some last_time =>
      if event.timestamp - last_time < c.config.cooldown_seconds then
        (c, none)
      else
        ({ c with last_alarm_time :=
            fun k => if k = kind then some event.timestamp else c.last_alarm_time k },
          some kind)

/-- The source condition `timestamp − last_alarm_time[kind] ≥
cooldown_seconds`, with the minus-infinity initial value (`none`) satisfying
it vacuously. -/
def cooldownElapsed (c : AlarmController) (k : AlarmKind) (t : ℚ) : Prop :=
  match c.last_alarm_time k with
  | none => True
  | some last_time => c.config.cooldown_seconds ≤ t - last_time

/-- C3: for an event mapping to alarm kind `k` (that is, an
`ENTER_DROWSY_ALARM` or `ENTER_DISTRACTED_ALARM` event), `process_event`
returns `some k` exactly when the event timestamp minus the kind's last fired
time is at least `cooldown_seconds`; when it fires it moves that kind's
last-alarm time to the event timestamp and leaves the other kind's cooldown
untouched; when it does not fire the controller is unchanged.  Events mapping
to no kind always return `none` and leave the controller unchanged
(`process_event_none` below); the cooldowns of the two kinds are independent
because a firing only rewrites its own kind's entry. -/
theorem C3_alarm_gate_cooldown (c : AlarmController) (e : FocusEvent)
    (k : AlarmKind) (h : alarmKindForEvent e = some k) :
    ((c.process_event e).2 = some k ↔ cooldownElapsed c k e.timestamp) ∧
      (cooldownElapsed c k e.timestamp →
        (c.process_event e).1.last_alarm_time k = some e.timestamp ∧
          ∀ k2, k2 ≠ k →
            (c.process_event e).1.last_alarm_time k2 = c.last_alarm_time k2) ∧
      (¬ cooldownElapsed c k e.timestamp →
        (c.process_event e).2 = none ∧ (c.process_event e).1 = c) := by
  unfold AlarmController.process_event cooldownElapsed
  rw [h]
  cases hl : c.last_alarm_time k with
  | none =>
    simp only [hl]
    exact ⟨by simp, fun _ => ⟨by simp, fun k2 hk2 => by simp [hk2]⟩,
      fun hc => absurd trivial hc⟩
  | some last_time =>
    simp only [hl]
    by_cases hcool : e.timestamp - last_time < c.config.cooldown_seconds
    · rw [if_pos hcool]
      exact ⟨⟨fun hco => by simp at hco, fun hco => absurd hco (not_le.mpr (by linarith))⟩,
        fun hco => absurd hco (not_le.mpr (by linarith)), fun _ => ⟨rfl, rfl⟩⟩
    · have hge : c.config.cooldown_seconds ≤ e.timestamp - last_time := not_lt.mp hcool
      rw [if_neg hcool]
      exact ⟨⟨fun _ => hge, fun _ => rfl⟩, fun _ => ⟨by simp, fun k2 hk2 => by simp [hk2]⟩,
        fun hc => absurd hge hc⟩

/-- Events that do not enter an alarm state never fire and leave the
controller unchanged. -/
theorem process_event_none (c : AlarmController) (e : FocusEvent)
    (h : alarmKindForEvent e = none) : c.process_event e = (c, none) := by
  unfold AlarmController.process_event
  rw [h]

/-- A drowsy-alarm-entering event at time `t`, for concrete scenarios. -/
def alarmEventAt (t : ℚ) : FocusEvent :=
  ⟨t, .ENTER_DROWSY_ALARM, .DROWSY_WARNING, .DROWSY_ALARM, 100, 0⟩

/-- Witness for C3, the claim's concrete scenario: with
`cooldown_seconds = 10`, drowsy-alarm events at times 0, 2 and 11 yield a
kind, then `none`, then a kind again. -/
theorem C3_alarm_gate_cooldown_witness :
    ((AlarmController.init ⟨10⟩).process_event (alarmEventAt 0)).2 =
        some AlarmKind.DROWSY ∧
      (((AlarmController.init ⟨10⟩).process_event (alarmEventAt 0)).1.process_event
          (alarmEventAt 2)).2 = none ∧
      ((((AlarmController.init ⟨10⟩).process_event (alarmEventAt 0)).1.process_event
          (alarmEventAt 2)).1.process_event (alarmEventAt 11)).2 =
        some AlarmKind.DROWSY := by
  have hc1last : ((AlarmController.init ⟨10⟩).process_event (alarmEventAt 0)).1.last_alarm_time
      AlarmKind.DROWSY = some 0 := rfl
  have hc1cfg : ((AlarmController.init ⟨10⟩).process_event (alarmEventAt 0)).1.config =
      (⟨10⟩ : AlarmConfig) := rfl
  have h0 := C3_alarm_gate_cooldown (AlarmController.init ⟨10⟩) (alarmEventAt 0)
    AlarmKind.DROWSY rfl
  have hfire0 : ((AlarmController.init ⟨10⟩).process_event (alarmEventAt 0)).2 =
      some AlarmKind.DROWSY := h0.1.mpr trivial
  have h2 := C3_alarm_gate_cooldown
    ((AlarmController.init ⟨10⟩).process_event (alarmEventAt 0)).1 (alarmEventAt 2)
    AlarmKind.DROWSY rfl
  have hnot2 : ¬ cooldownElapsed
      ((AlarmController.init ⟨10⟩).process_event (alarmEventAt 0)).1
      AlarmKind.DROWSY (alarmEventAt 2).timestamp := by
    unfold cooldownElapsed
    rw [hc1last, hc1cfg]
    norm_num [alarmEventAt]
  have hskip := h2.2.2 hnot2
  have h11 := C3_alarm_gate_cooldown
    (((AlarmController.init ⟨10⟩).process_event (alarmEventAt 0)).1.process_event
      (alarmEventAt 2)).1 (alarmEventAt 11) AlarmKind.DROWSY rfl
  refine ⟨hfire0, hskip.1, h11.1.mpr ?_⟩
  rw [hskip.2]
  unfold cooldownElapsed
  rw [hc1last, hc1cfg]
  norm_num [alarmEventAt]

/-- C9: a fresh `AlarmController` fires on the first alarm-entering event it
sees, whatever the event's timestamp (zero and negative included), because
each kind's last-alarm time starts at minus infinity (modelled `none`), which
defeats the cooldown test; the fired kind's clock is then set to that
timestamp. -/
theorem C9_first_event_always_fires (cfg : AlarmConfig) (e : FocusEvent)
    (k : AlarmKind) (h : alarmKindForEvent e = some k) :
    ((AlarmController.init cfg).process_event e).2 = some k ∧
      ((AlarmController.init cfg).process_event e).1.last_alarm_time k =
        some e.timestamp := by
  unfold AlarmController.process_event AlarmController.init
  rw [h]
  simp

/-- Witness for C9: an event with a negative timestamp fires immediately on a
fresh controller with a large cooldown. -/
theorem C9_first_event_always_fires_witness :
    ((AlarmController.init ⟨1000⟩).process_event (alarmEventAt (-5))).2 =
        some AlarmKind.DROWSY ∧
      ((AlarmController.init ⟨1000⟩).process_event (alarmEventAt (-5))).1.last_alarm_time
        AlarmKind.DROWSY = some (alarmEventAt (-5)).timestamp :=
  C9_first_event_always_fires ⟨1000⟩ (alarmEventAt (-5)) AlarmKind.DROWSY rfl

/-! ## Sliding-window signal processor (src/core/signals.py) -/

/-- Mirrors the `SignalConfig` dataclass. -/
structure SignalConfig where
  window_duration_seconds : ℚ
  eye_aspect_ratio_threshold : ℚ
  minimum_blink_duration_seconds : ℚ
  minimum_long_blink_duration_seconds : ℚ
  baseline_blink_rate_per_minute : ℚ
  drowsiness_long_blink_weight : ℚ
  drowsiness_blink_rate_weight : ℚ
  distraction_face_missing_weight : ℚ
deriving DecidableEq, Repr

/-- The dataclass defaults of `SignalConfig`. -/
def defaultSignalConfig : SignalConfig :=
  ⟨20, 22/100, 1/10, 4/10, 20, 35, 3/2, 100⟩

/-- Mutable state of `SignalProcessor` (its `__init__` fields).  The deques
are lists whose head is the left end. -/
structure SignalProcessor where
  config : SignalConfig
  sample_timestamps : List ℚ
  sample_face_present_flags : List Bool
  sample_count : ℤ
  sample_count_face_present : ℤ
  blink_event_timestamps : List ℚ
  long_blink_event_timestamps : List ℚ
  current_blink_active : Bool
  current_blink_start_timestamp : Option ℚ
deriving DecidableEq, Repr

/-- `SignalProcessor.__init__`. -/
def SignalProcessor.init (config : SignalConfig) : SignalProcessor :=
  ⟨config, [], [], 0, 0, [], [], false, none⟩

/-- The first `while` loop of `_prune_old`: pop sample entries from the left
while the oldest timestamp is strictly older than the cutoff, maintaining the
two sample queues and the two counters in lockstep. -/
def pruneSamples (cutoff : ℚ) :
    List ℚ → List Bool → ℤ → ℤ → List ℚ × List Bool × ℤ × ℤ
  | [], fs, c, cp => ([], fs, c, cp)
  | t :: ts, fs, c, cp =>
    if t < cutoff then
      pruneSamples cutoff ts fs.tail (c - 1)
        (if fs.head? = some true then cp - 1 else cp)
    else (t :: ts, fs, c, cp)

/-- The second and third `while` loops of `_prune_old`: pop from the left
while the head is strictly older than the cutoff. -/
def pruneQueue (cutoff : ℚ) : List ℚ → List ℚ
  | [] => []
  | t :: ts => if t < cutoff then pruneQueue cutoff ts else t :: ts

/-- `SignalProcessor._prune_old`. -/
def SignalProcessor.pruneOld (p : SignalProcessor) (timestamp : ℚ) :
    SignalProcessor :=
  let cutoff := timestamp - p.config.window_duration_seconds
  let r := pruneSamples cutoff p.sample_timestamps p.sample_face_present_flags
    p.sample_count p.sample_count_face_present
  { p with
    sample_timestamps := r.1
    sample_face_present_flags := r.2.1
    sample_count := r.2.2.1
    sample_count_face_present := r.2.2.2
    blink_event_timestamps := pruneQueue cutoff p.blink_event_timestamps
    long_blink_event_timestamps := pruneQueue cutoff p.long_blink_event_timestamps }

/-- `SignalProcessor._update_samples`. -/
def SignalProcessor.updateSamples (p : SignalProcessor) (timestamp : ℚ)
    (face_present : Bool) : SignalProcessor :=
  { p with
    sample_timestamps := p.sample_timestamps ++ [timestamp]
    sample_face_present_flags := p.sample_face_present_flags ++ [face_present]
    sample_count := p.sample_count + 1
    sample_count_face_present :=
      if face_present then p.sample_count_face_present + 1
      else p.sample_count_face_present }

/-- `SignalProcessor._update_blinks`.  The Python `assert` that an active
blink has a start timestamp is modelled by defaulting to the current
timestamp when the start is absent (unreachable while the blink-in-progress
invariant holds). -/
def SignalProcessor.updateBlinks (p : SignalProcessor) (timestamp : ℚ)
    (minimum_eye_aspect_ratio : Option ℚ) : SignalProcessor :=
  let eye_closed : Bool :=
    match minimum_eye_aspect_ratio with
    | none => false
    | some r => decide (r < p.config.eye_aspect_ratio_threshold)
  if eye_closed && !p.current_blink_active then
    { p with
      current_blink_active := true
      current_blink_start_timestamp := some timestamp }
  else if !eye_closed && p.current_blink_active then
    let start := p.current_blink_start_timestamp.getD timestamp
    let blink_duration := timestamp - start
    let p1 :=
      if blink_duration ≥ p.config.minimum_blink_duration_seconds then
        { p with
          blink_event_timestamps := p.blink_event_timestamps ++ [timestamp]
          long_blink_event_timestamps :=
            if blink_duration ≥ p.config.minimum_long_blink_duration_seconds then
              p.long_blink_event_timestamps ++ [timestamp]
            else p.long_blink_event_timestamps }
      else p
    { p1 with
      current_blink_active := false
      current_blink_start_timestamp := none }
  else p

/-- `SignalProcessor._compute_scores`.  The deque indexings
`sample_timestamps[-1]` and `sample_timestamps[0]` are modelled with
`getLast?`/`head?` defaulting to 0 (the defaults are unreachable: that branch
requires `sample_count ≥ 2`, and the counter equals the queue length). -/
def SignalProcessor.computeScores (p : SignalProcessor) : SignalScores :=
  if p.sample_count ≤ 0 then ⟨0, 0, 0, 0, 0⟩
  else
    let window_span0 : ℚ :=
      if p.sample_count ≥ 2 then
        let span := (p.sample_timestamps.getLast?.getD 0) -
          (p.sample_timestamps.head?.getD 0)
        if span ≤ 0 then p.config.window_duration_seconds else span
      else p.config.window_duration_seconds
    let window_span1 := min window_span0 p.config.window_duration_seconds
    let window_span :=
      if window_span1 ≤ 0 then p.config.window_duration_seconds else window_span1
    let blink_count := p.blink_event_timestamps.length
    let long_blink_count := p.long_blink_event_timestamps.length
    let blink_rate_per_minute : ℚ :=
      if blink_count > 0 then (blink_count : ℚ) * 60 / window_span else 0
    let fraction_face_missing : ℚ :=
      if p.sample_count > 0 then
        1 - (p.sample_count_face_present : ℚ) / (p.sample_count : ℚ)
      else 0
    let drowsiness_from_long_blinks :=
      p.config.drowsiness_long_blink_weight * (long_blink_count : ℚ)
    let excess_blink_rate :=
      max 0 (blink_rate_per_minute - p.config.baseline_blink_rate_per_minute)
    let drowsiness_from_blink_rate :=
      p.config.drowsiness_blink_rate_weight * excess_blink_rate
    let drowsiness_score0 := drowsiness_from_long_blinks + drowsiness_from_blink_rate
    let distraction_score0 :=
      p.config.distraction_face_missing_weight * fraction_face_missing
    ⟨max 0 (min 100 drowsiness_score0), max 0 (min 100 distraction_score0),
      blink_rate_per_minute, long_blink_count, fraction_face_missing⟩

/-- `SignalProcessor.update`: one tick.  Returns the post-call processor and
the scores. -/
def SignalProcessor.update (p : SignalProcessor) (timestamp : ℚ)
    (face_present : Bool) (left_eye_ear : Option ℚ) (right_eye_ear : Option ℚ) :
    SignalProcessor × SignalScores :=
  let p1 := p.pruneOld timestamp
  let p2 := p1.updateSamples timestamp face_present
  let minimum_eye_aspect_ratio : Option ℚ :=
    match face_present, left_eye_ear, right_eye_ear with
    | true, some l, some r => some (min l r)
    | _, _, _ => none
  let p3 := p2.updateBlinks timestamp minimum_eye_aspect_ratio
  (p3, p3.computeScores)

/-- Drive the processor over a list of
`(timestamp, face_present, left_eye_ear, right_eye_ear)` measurements. -/
def SignalProcessor.runMeasurements (p : SignalProcessor) :
    List (ℚ × Bool × Option ℚ × Option ℚ) → SignalProcessor
  | [] => p
  | (t, f, l, r) :: rest => ((p.update t f l r).1).runMeasurements rest

/-- Counterexample to C4 as stated: on the very first call with
`face_present = false`, the returned scores are not all zero — the missing
face counts as the only sample of the window, so `fraction_face_missing` is 1
and `distraction_score` is 100 (the full face-missing weight). -/
theorem C4_first_call_counterexample :
    ((SignalProcessor.init defaultSignalConfig).update 0 false none none).2.distraction_score
        = 100 ∧
      ((SignalProcessor.init defaultSignalConfig).update 0 false none none).2.fraction_face_missing
        = 1 := by
  constructor <;>
    norm_num [SignalProcessor.update, SignalProcessor.pruneOld,
      SignalProcessor.updateSamples, SignalProcessor.updateBlinks,
      SignalProcessor.computeScores, SignalProcessor.init, pruneSamples,
      pruneQueue, defaultSignalConfig]

/-- C4 (amended): a processor that has received zero updates has all-zero
scores, and the very first `update` returns all-zero scores when a face is
present (whatever the eye ratios); when the face is absent the first call
instead returns `fraction_face_missing = 1` and `distraction_score = 100`
with the remaining components zero. -/
theorem C4_first_call_zero_scores (t : ℚ) (l r : Option ℚ) :
    (SignalProcessor.init defaultSignalConfig).computeScores = ⟨0, 0, 0, 0, 0⟩ ∧
      ((SignalProcessor.init defaultSignalConfig).update t true l r).2 = ⟨0, 0, 0, 0, 0⟩ ∧
      ((SignalProcessor.init defaultSignalConfig).update t false l r).2 = ⟨0, 100, 0, 0, 1⟩ := by
  refine ⟨rfl, ?_, ?_⟩ <;>
    cases l <;> cases r <;>
    simp [SignalProcessor.update, SignalProcessor.pruneOld,
      SignalProcessor.updateSamples, SignalProcessor.updateBlinks,
      SignalProcessor.computeScores, SignalProcessor.init, pruneSamples,
      pruneQueue, defaultSignalConfig, apply_ite]

/-! ### Queue lemmas for claim C6 -/

theorem pruneQueue_subset {c : ℚ} : ∀ {l : List ℚ}, ∀ x ∈ pruneQueue c l, x ∈ l := by
  intro l
  induction l with
  | nil => simp [pruneQueue]
  | cons t ts ih =>
    intro x hx
    simp only [pruneQueue] at hx
    split_ifs at hx with h
    · exact List.mem_cons_of_mem _ (ih x hx)
    · exact hx

theorem pruneQueue_sublist (c : ℚ) : ∀ (l : List ℚ), (pruneQueue c l).Sublist l := by
  intro l
  induction l with
  | nil => simp [pruneQueue]
  | cons t ts ih =>
    simp only [pruneQueue]
    split_ifs with h
    · exact ih.trans (List.sublist_cons_self _ _)
    · exact List.Sublist.refl _

theorem pruneQueue_ge {c : ℚ} :
    ∀ {l : List ℚ}, List.Pairwise (· ≤ ·) l → ∀ x ∈ pruneQueue c l, c ≤ x := by
  intro l
  induction l with
  | nil => simp [pruneQueue]
  | cons t ts ih =>
    intro hp x hx
    rw [List.pairwise_cons] at hp
    simp only [pruneQueue] at hx
    split_ifs at hx with h
    · exact ih hp.2 x hx
    · rcases List.mem_cons.mp hx with rfl | hx'
      · exact not_lt.mp h
      · exact le_trans (not_lt.mp h) (hp.1 x hx')

theorem pruneSamples_fst (c : ℚ) : ∀ (ts : List ℚ) (fs : List Bool) (a b : ℤ),
    (pruneSamples c ts fs a b).1 = pruneQueue c ts := by
  intro ts
  induction ts with
  | nil => intro fs a b; rfl
  | cons t ts ih =>
    intro fs a b
    simp only [pruneSamples, pruneQueue]
    split_ifs with h h2
    · exact ih _ _ _
    · exact ih _ _ _
    · rfl

/-- Field view of `_prune_old`: all three queues are pruned at
`timestamp - window_duration_seconds`, the config is untouched. -/
theorem pruneOld_fields (p : SignalProcessor) (t : ℚ) :
    (p.pruneOld t).sample_timestamps =
        pruneQueue (t - p.config.window_duration_seconds) p.sample_timestamps ∧
      (p.pruneOld t).blink_event_timestamps =
        pruneQueue (t - p.config.window_duration_seconds) p.blink_event_timestamps ∧
      (p.pruneOld t).long_blink_event_timestamps =
        pruneQueue (t - p.config.window_duration_seconds) p.long_blink_event_timestamps ∧
      (p.pruneOld t).config = p.config := by
  refine ⟨?_, rfl, rfl, rfl⟩
  simp [SignalProcessor.pruneOld, pruneSamples_fst]

/-- Field view of `_update_blinks`: the sample queue and config are untouched;
each blink queue is either unchanged or extended by the current timestamp. -/
theorem updateBlinks_shape (p : SignalProcessor) (t : ℚ) (mr : Option ℚ) :
    (p.updateBlinks t mr).config = p.config ∧
      (p.updateBlinks t mr).sample_timestamps = p.sample_timestamps ∧
      ((p.updateBlinks t mr).blink_event_timestamps = p.blink_event_timestamps ∨
        (p.updateBlinks t mr).blink_event_timestamps =
          p.blink_event_timestamps ++ [t]) ∧
      ((p.updateBlinks t mr).long_blink_event_timestamps =
          p.long_blink_event_timestamps ∨
        (p.updateBlinks t mr).long_blink_event_timestamps =
          p.long_blink_event_timestamps ++ [t]) := by
  simp only [SignalProcessor.updateBlinks]
  split_ifs <;> simp

/-- The machine after one `update`: samples are the pruned queue plus the new
timestamp; each blink queue is its pruned form, possibly extended by the
timestamp; the config is unchanged. -/
theorem update_fields (p : SignalProcessor) (t : ℚ) (f : Bool) (l r : Option ℚ) :
    (p.update t f l r).1.sample_timestamps =
        pruneQueue (t - p.config.window_duration_seconds) p.sample_timestamps ++ [t] ∧
      ((p.update t f l r).1.blink_event_timestamps =
          pruneQueue (t - p.config.window_duration_seconds) p.blink_event_timestamps ∨
        (p.update t f l r).1.blink_event_timestamps =
          pruneQueue (t - p.config.window_duration_seconds) p.blink_event_timestamps
            ++ [t]) ∧
      ((p.update t f l r).1.long_blink_event_timestamps =
          pruneQueue (t - p.config.window_duration_seconds)
            p.long_blink_event_timestamps ∨
        (p.update t f l r).1.long_blink_event_timestamps =
          pruneQueue (t - p.config.window_duration_seconds)
            p.long_blink_event_timestamps ++ [t]) ∧
      (p.update t f l r).1.config = p.config := by
  obtain ⟨hp1, hp2, hp3, hp4⟩ := pruneOld_fields p t
  obtain ⟨hb1, hb2, hb3, hb4⟩ := updateBlinks_shape ((p.pruneOld t).updateSamples t f) t
    (match f, l, r with
      | true, some a, some b => some (min a b)
      | _, _, _ => none)
  refine ⟨?_, ?_, ?_, ?_⟩
  · show ((((p.pruneOld t).updateSamples t f)).updateBlinks t _).sample_timestamps = _
    rw [hb2]
    show (p.pruneOld t).sample_timestamps ++ [t] = _
    rw [hp1]
  · show (((p.pruneOld t).updateSamples t f).updateBlinks t _).blink_event_timestamps = _ ∨
      (((p.pruneOld t).updateSamples t f).updateBlinks t _).blink_event_timestamps = _
    have hsame : ((p.pruneOld t).updateSamples t f).blink_event_timestamps =
        pruneQueue (t - p.config.window_duration_seconds) p.blink_event_timestamps := hp2
    rcases hb3 with h | h <;> rw [h, hsame] <;> simp
  · show (((p.pruneOld t).updateSamples t f).updateBlinks t _).long_blink_event_timestamps = _ ∨
      (((p.pruneOld t).updateSamples t f).updateBlinks t _).long_blink_event_timestamps = _
    have hsame : ((p.pruneOld t).updateSamples t f).long_blink_event_timestamps =
        pruneQueue (t - p.config.window_duration_seconds) p.long_blink_event_timestamps := hp3
    rcases hb4 with h | h <;> rw [h, hsame] <;> simp
  · show (((p.pruneOld t).updateSamples t f).updateBlinks t _).config = _
    rw [hb1]
    exact hp4

/-- Well-formedness of the three queues after a run whose latest timestamp is
`t`: each queue is timestamp-ordered and every entry lies within
`[t - window_duration_seconds, t]`. -/
structure QueueInv (p : SignalProcessor) (t : ℚ) : Prop where
  s_sorted : List.Pairwise (· ≤ ·) p.sample_timestamps
  b_sorted : List.Pairwise (· ≤ ·) p.blink_event_timestamps
  lb_sorted : List.Pairwise (· ≤ ·) p.long_blink_event_timestamps
  s_mem : ∀ x ∈ p.sample_timestamps,
    t - p.config.window_duration_seconds ≤ x ∧ x ≤ t
  b_mem : ∀ x ∈ p.blink_event_timestamps,
    t - p.config.window_duration_seconds ≤ x ∧ x ≤ t
  lb_mem : ∀ x ∈ p.long_blink_event_timestamps,
    t - p.config.window_duration_seconds ≤ x ∧ x ≤ t

/-- Pruning a well-formed queue at a later timestamp, optionally appending
that timestamp, preserves order and the window bounds. -/
theorem queue_step {q : List ℚ} {W t t' : ℚ} (hq : List.Pairwise (· ≤ ·) q)
    (hmem : ∀ x ∈ q, t - W ≤ x ∧ x ≤ t) (hW : 0 ≤ W) (ht : t ≤ t') :
    (List.Pairwise (· ≤ ·) (pruneQueue (t' - W) q) ∧
      ∀ x ∈ pruneQueue (t' - W) q, t' - W ≤ x ∧ x ≤ t') ∧
    (List.Pairwise (· ≤ ·) (pruneQueue (t' - W) q ++ [t']) ∧
      ∀ x ∈ pruneQueue (t' - W) q ++ [t'], t' - W ≤ x ∧ x ≤ t') := by
  have hsub := pruneQueue_sublist (t' - W) q
  have hp := List.Pairwise.sublist hsub hq
  have hmemq : ∀ x ∈ pruneQueue (t' - W) q, t' - W ≤ x ∧ x ≤ t' := by
    intro x hx
    refine ⟨pruneQueue_ge hq x hx, ?_⟩
    have := (hmem x (hsub.subset hx)).2
    linarith
  refine ⟨⟨hp, hmemq⟩, ?_, ?_⟩
  · rw [List.pairwise_append]
    refine ⟨hp, List.pairwise_singleton _ _, fun a ha b hb => ?_⟩
    rw [List.mem_singleton] at hb
    subst hb
    exact (hmemq a ha).2
  · intro x hx
    rcases List.mem_append.mp hx with hx' | hx'
    · exact hmemq x hx'
    · rw [List.mem_singleton] at hx'
      subst hx'
      exact ⟨by linarith, le_refl _⟩

/-- One `update` at a later timestamp preserves queue well-formedness. -/
theorem queueInv_update {p : SignalProcessor} {t : ℚ} (inv : QueueInv p t)
    (hW : 0 ≤ p.config.window_duration_seconds) {t' : ℚ} (ht : t ≤ t')
    (f : Bool) (l r : Option ℚ) : QueueInv (p.update t' f l r).1 t' := by
  obtain ⟨hs, hb, hlb, hc⟩ := update_fields p t' f l r
  have hcfg : (p.update t' f l r).1.config.window_duration_seconds =
      p.config.window_duration_seconds := by rw [hc]
  have hstep_s := queue_step inv.s_sorted inv.s_mem hW ht
  have hstep_b := queue_step inv.b_sorted inv.b_mem hW ht
  have hstep_lb := queue_step inv.lb_sorted inv.lb_mem hW ht
  refine ⟨?_, ?_, ?_, ?_, ?_, ?_⟩
  · rw [hs]; exact hstep_s.2.1
  · rcases hb with h | h <;> rw [h]
    · exact hstep_b.1.1
    · exact hstep_b.2.1
  · rcases hlb with h | h <;> rw [h]
    · exact hstep_lb.1.1
    · exact hstep_lb.2.1
  · rw [hs, hcfg]; exact hstep_s.2.2
  · rw [hcfg]
    rcases hb with h | h <;> rw [h]
    · exact hstep_b.1.2
    · exact hstep_b.2.2
  · rw [hcfg]
    rcases hlb with h | h <;> rw [h]
    · exact hstep_lb.1.2
    · exact hstep_lb.2.2

/-- `update` does not change the configuration. -/
theorem update_config (p : SignalProcessor) (t : ℚ) (f : Bool) (l r : Option ℚ) :
    (p.update t f l r).1.config = p.config := (update_fields p t f l r).2.2.2

/-- Queue well-formedness along a whole run with non-decreasing timestamps. -/
theorem runMeasurements_queueInv :
    ∀ (ms : List (ℚ × Bool × Option ℚ × Option ℚ)) {p : SignalProcessor} {t : ℚ},
      QueueInv p t → 0 ≤ p.config.window_duration_seconds →
      List.Chain' (· ≤ ·) (t :: ms.map Prod.fst) →
      QueueInv (p.runMeasurements ms)
        ((t :: ms.map Prod.fst).getLast (List.cons_ne_nil _ _)) := by
  intro ms
  induction ms with
  | nil => intro p t inv _ _; exact inv
  | cons a rest ih =>
    obtain ⟨ta, fa, la, ra⟩ := a
    intro p t inv hW hchain
    simp only [List.map_cons] at hchain ⊢
    rw [List.chain'_cons] at hchain
    rw [List.getLast_cons (List.cons_ne_nil _ _)]
    have inv' := queueInv_update inv hW hchain.1 fa la ra
    have hW' : 0 ≤ (p.update ta fa la ra).1.config.window_duration_seconds := by
      rw [update_config]; exact hW
    exact ih inv' hW' hchain.2

/-- Sample-queue shape for the unit-spacing scenario: entries at least one
second apart and bounded above by the latest timestamp. -/
structure GapInv (p : SignalProcessor) (t : ℚ) : Prop where
  gap : List.Pairwise (fun a b : ℚ => a + 1 ≤ b) p.sample_timestamps
  mem : ∀ x ∈ p.sample_timestamps, x ≤ t

/-- One `update` at least one second later preserves the gap invariant. -/
theorem gapInv_update {p : SignalProcessor} {t : ℚ} (inv : GapInv p t)
    {t' : ℚ} (ht : t + 1 ≤ t') (f : Bool) (l r : Option ℚ) :
    GapInv (p.update t' f l r).1 t' := by
  obtain ⟨hs, _, _, _⟩ := update_fields p t' f l r
  have hsub := pruneQueue_sublist (t' - p.config.window_duration_seconds)
    p.sample_timestamps
  refine ⟨?_, ?_⟩
  · rw [hs, List.pairwise_append]
    refine ⟨List.Pairwise.sublist hsub inv.gap, List.pairwise_singleton _ _,
      fun a ha b hb => ?_⟩
    rw [List.mem_singleton] at hb
    subst hb
    have := inv.mem a (hsub.subset ha)
    linarith
  · rw [hs]
    intro x hx
    rcases List.mem_append.mp hx with hx' | hx'
    · have := inv.mem x (hsub.subset hx')
      linarith
    · rw [List.mem_singleton] at hx'
      subst hx'
      exact le_refl _

/-- The gap invariant along a run whose timestamps advance by at least one
second each tick. -/
theorem runMeasurements_gapInv :
    ∀ (ms : List (ℚ × Bool × Option ℚ × Option ℚ)) {p : SignalProcessor} {t : ℚ},
      GapInv p t →
      List.Chain' (fun a b : ℚ => a + 1 ≤ b) (t :: ms.map Prod.fst) →
      GapInv (p.runMeasurements ms)
        ((t :: ms.map Prod.fst).getLast (List.cons_ne_nil _ _)) := by
  intro ms
  induction ms with
  | nil => intro p t inv _; exact inv
  | cons a rest ih =>
    obtain ⟨ta, fa, la, ra⟩ := a
    intro p t inv hchain
    simp only [List.map_cons] at hchain ⊢
    rw [List.chain'_cons] at hchain
    rw [List.getLast_cons (List.cons_ne_nil _ _)]
    exact ih (gapInv_update inv hchain.1 fa la ra) hchain.2

/-- A list whose entries are pairwise at least one apart and all inside
`[lo, hi]` has at most `hi - lo + 1` entries. -/
theorem length_le_of_gap :
    ∀ {l : List ℚ}, List.Pairwise (fun a b : ℚ => a + 1 ≤ b) l →
      ∀ lo hi : ℚ, (∀ x ∈ l, lo ≤ x ∧ x ≤ hi) → (-1 : ℚ) ≤ hi - lo →
      (l.length : ℚ) ≤ hi - lo + 1 := by
  intro l
  induction l with
  | nil =>
    intro _ lo hi _ hge
    simp only [List.length_nil, Nat.cast_zero]
    linarith
  | cons a rest ih =>
    intro hp lo hi hmem hge
    rw [List.pairwise_cons] at hp
    have ha := hmem a (List.mem_cons_self _ _)
    have hmem' : ∀ x ∈ rest, lo + 1 ≤ x ∧ x ≤ hi := by
      intro x hx
      exact ⟨by linarith [hp.1 x hx, ha.1], (hmem x (List.mem_cons_of_mem _ hx)).2⟩
    have hrec := ih hp.2 (lo + 1) hi hmem' (by linarith [ha.1, ha.2])
    simp only [List.length_cons, Nat.cast_succ]
    push_cast at hrec ⊢
    linarith

/-- `runMeasurements` does not change the configuration. -/
theorem runMeasurements_config :
    ∀ (ms : List (ℚ × Bool × Option ℚ × Option ℚ)) (p : SignalProcessor),
      (p.runMeasurements ms).config = p.config := by
  intro ms
  induction ms with
  | nil => intro p; rfl
  | cons a rest ih =>
    obtain ⟨ta, fa, la, ra⟩ := a
    intro p
    show ((p.update ta fa la ra).1.runMeasurements rest).config = p.config
    rw [ih, update_config]

/-- Timestamps one second apart form a `+1`-gap chain. -/
theorem chain_gap_range (t0 : ℚ) (N : ℕ) :
    List.Chain' (fun a b : ℚ => a + 1 ≤ b)
      ((List.range N).map fun (k : ℕ) => t0 + (k : ℚ)) := by
  haveI : IsTrans ℚ (fun a b : ℚ => a + 1 ≤ b) :=
    ⟨fun a b c hab hbc => by linarith⟩
  rw [List.chain'_iff_pairwise]
  refine List.Pairwise.map _ (fun a b h => ?_) (List.pairwise_lt_range N)
  have hab : (a : ℚ) + 1 ≤ (b : ℚ) := by exact_mod_cast h
  linarith

/-- C6: starting from a fresh processor and feeding a non-empty measurement
list with non-decreasing timestamps, after the run all three queues (window
samples, blinks, long blinks) are timestamp-ordered and no retained entry is
strictly older than the latest timestamp minus `window_duration_seconds`
(since the run list is arbitrary, this holds after every update of any
well-timed feed); moreover, feeding `N` samples spaced exactly one second
apart leaves at most `window_duration_seconds + 1` retained window samples,
whatever the per-sample face flags and eye ratios. -/
theorem C6_window_queue_invariant (cfg : SignalConfig)
    (hW : 0 ≤ cfg.window_duration_seconds)
    (ms : List (ℚ × Bool × Option ℚ × Option ℚ)) (hne : ms ≠ [])
    (hchain : List.Chain' (· ≤ ·) (ms.map Prod.fst))
    (t0 : ℚ) (N : ℕ) (meas : ℕ → Bool × Option ℚ × Option ℚ) :
    (List.Pairwise (· ≤ ·)
        ((SignalProcessor.init cfg).runMeasurements ms).sample_timestamps ∧
      List.Pairwise (· ≤ ·)
        ((SignalProcessor.init cfg).runMeasurements ms).blink_event_timestamps ∧
      List.Pairwise (· ≤ ·)
        ((SignalProcessor.init cfg).runMeasurements ms).long_blink_event_timestamps ∧
      (∀ x ∈ ((SignalProcessor.init cfg).runMeasurements ms).sample_timestamps,
        (ms.map Prod.fst).getLast (by simpa using hne) -
          cfg.window_duration_seconds ≤ x) ∧
      (∀ x ∈ ((SignalProcessor.init cfg).runMeasurements ms).blink_event_timestamps,
        (ms.map Prod.fst).getLast (by simpa using hne) -
          cfg.window_duration_seconds ≤ x) ∧
      (∀ x ∈ ((SignalProcessor.init cfg).runMeasurements ms).long_blink_event_timestamps,
        (ms.map Prod.fst).getLast (by simpa using hne) -
          cfg.window_duration_seconds ≤ x)) ∧
    ((((SignalProcessor.init cfg).runMeasurements
          ((List.range N).map fun (k : ℕ) =>
            (t0 + (k : ℚ), (meas k).1, (meas k).2.1, (meas k).2.2))).sample_timestamps.length : ℚ) ≤
      cfg.window_duration_seconds + 1) := by
  constructor
  · obtain ⟨m0, mrest, rfl⟩ : ∃ a l, ms = a :: l := by
      cases ms with
      | nil => exact absurd rfl hne
      | cons a l => exact ⟨a, l, rfl⟩
    have hinv0 : QueueInv (SignalProcessor.init cfg) m0.1 :=
      ⟨List.Pairwise.nil, List.Pairwise.nil, List.Pairwise.nil,
        fun x hx => absurd hx (List.not_mem_nil x),
        fun x hx => absurd hx (List.not_mem_nil x),
        fun x hx => absurd hx (List.not_mem_nil x)⟩
    have hchain0 : List.Chain' (· ≤ ·) (m0.1 :: (m0 :: mrest).map Prod.fst) := by
      simp only [List.map_cons]
      exact List.chain'_cons.mpr ⟨le_refl _, by simpa using hchain⟩
    have hinv := runMeasurements_queueInv (m0 :: mrest) hinv0 hW hchain0
    have hlast : (m0.1 :: (m0 :: mrest).map Prod.fst).getLast (List.cons_ne_nil _ _) =
        ((m0 :: mrest).map Prod.fst).getLast (by simp) := by
      simp only [List.map_cons]
      rw [List.getLast_cons (List.cons_ne_nil _ _)]
    rw [hlast] at hinv
    have hcfg := runMeasurements_config (m0 :: mrest) (SignalProcessor.init cfg)
    refine ⟨hinv.s_sorted, hinv.b_sorted, hinv.lb_sorted, ?_, ?_, ?_⟩
    · intro x hx
      have := (hinv.s_mem x hx).1
      rw [hcfg] at this
      exact this
    · intro x hx
      have := (hinv.b_mem x hx).1
      rw [hcfg] at this
      exact this
    · intro x hx
      have := (hinv.lb_mem x hx).1
      rw [hcfg] at this
      exact this
  · set ms2 : List (ℚ × Bool × Option ℚ × Option ℚ) :=
      (List.range N).map fun (k : ℕ) =>
        (t0 + (k : ℚ), (meas k).1, (meas k).2.1, (meas k).2.2) with hms2
    have hfst : ms2.map Prod.fst = (List.range N).map fun (k : ℕ) => t0 + (k : ℚ) := by
      simp [hms2, List.map_map, Function.comp]
    have hgapchain : List.Chain' (fun a b : ℚ => a + 1 ≤ b)
        ((t0 - 1) :: ms2.map Prod.fst) := by
      rw [hfst, List.chain'_cons']
      refine ⟨?_, chain_gap_range t0 N⟩
      intro y hy
      cases N with
      | zero => simp at hy
      | succ n =>
        rw [List.range_succ_eq_map] at hy
        simp at hy
        linarith [hy.symm.le]
    have hlechain : List.Chain' (· ≤ ·) ((t0 - 1) :: ms2.map Prod.fst) :=
      hgapchain.imp (fun a b h => by linarith)
    have hq := runMeasurements_queueInv ms2
      (⟨List.Pairwise.nil, List.Pairwise.nil, List.Pairwise.nil,
        fun x hx => absurd hx (List.not_mem_nil x),
        fun x hx => absurd hx (List.not_mem_nil x),
        fun x hx => absurd hx (List.not_mem_nil x)⟩ :
          QueueInv (SignalProcessor.init cfg) (t0 - 1)) hW hlechain
    have hg := runMeasurements_gapInv ms2
      (⟨List.Pairwise.nil, fun x hx => absurd hx (List.not_mem_nil x)⟩ :
          GapInv (SignalProcessor.init cfg) (t0 - 1)) hgapchain
    have hcfg := runMeasurements_config ms2 (SignalProcessor.init cfg)
    set tl := ((t0 - 1) :: ms2.map Prod.fst).getLast (List.cons_ne_nil _ _) with htl
    have hmem : ∀ x ∈ ((SignalProcessor.init cfg).runMeasurements ms2).sample_timestamps,
        tl - cfg.window_duration_seconds ≤ x ∧ x ≤ tl := by
      intro x hx
      have := hq.s_mem x hx
      rw [hcfg] at this
      exact this
    have hlen := length_le_of_gap hg.gap (tl - cfg.window_duration_seconds) tl hmem
      (by linarith)
    linarith [hlen]

/-- Witness for C6 at a concrete input: two measurements at times 0 and 1 on
the default configuration, and the unit-spacing scenario with `N = 2`. -/
theorem C6_window_queue_invariant_witness :
    (List.Pairwise (· ≤ ·)
        ((SignalProcessor.init defaultSignalConfig).runMeasurements
          [((0 : ℚ), true, (none : Option ℚ), (none : Option ℚ)),
            (1, true, none, none)]).sample_timestamps ∧
      List.Pairwise (· ≤ ·)
        ((SignalProcessor.init defaultSignalConfig).runMeasurements
          [((0 : ℚ), true, (none : Option ℚ), (none : Option ℚ)),
            (1, true, none, none)]).blink_event_timestamps ∧
      List.Pairwise (· ≤ ·)
        ((SignalProcessor.init defaultSignalConfig).runMeasurements
          [((0 : ℚ), true, (none : Option ℚ), (none : Option ℚ)),
            (1, true, none, none)]).long_blink_event_timestamps ∧
      (∀ x ∈ ((SignalProcessor.init defaultSignalConfig).runMeasurements
          [((0 : ℚ), true, (none : Option ℚ), (none : Option ℚ)),
            (1, true, none, none)]).sample_timestamps,
        (([((0 : ℚ), true, (none : Option ℚ), (none : Option ℚ)),
            (1, true, none, none)].map Prod.fst).getLast (by simp)) -
          defaultSignalConfig.window_duration_seconds ≤ x) ∧
      (∀ x ∈ ((SignalProcessor.init defaultSignalConfig).runMeasurements
          [((0 : ℚ), true, (none : Option ℚ), (none : Option ℚ)),
            (1, true, none, none)]).blink_event_timestamps,
        (([((0 : ℚ), true, (none : Option ℚ), (none : Option ℚ)),
            (1, true, none, none)].map Prod.fst).getLast (by simp)) -
          defaultSignalConfig.window_duration_seconds ≤ x) ∧
      (∀ x ∈ ((SignalProcessor.init defaultSignalConfig).runMeasurements
          [((0 : ℚ), true, (none : Option ℚ), (none : Option ℚ)),
            (1, true, none, none)]).long_blink_event_timestamps,
        (([((0 : ℚ), true, (none : Option ℚ), (none : Option ℚ)),
            (1, true, none, none)].map Prod.fst).getLast (by simp)) -
          defaultSignalConfig.window_duration_seconds ≤ x)) ∧
    ((((SignalProcessor.init defaultSignalConfig).runMeasurements
          ((List.range 2).map fun (k : ℕ) =>
            ((0 : ℚ) + (k : ℚ), true, (none : Option ℚ),
              (none : Option ℚ)))).sample_timestamps.length : ℚ) ≤
      defaultSignalConfig.window_duration_seconds + 1) :=
  C6_window_queue_invariant defaultSignalConfig (by norm_num [defaultSignalConfig])
    [((0 : ℚ), true, (none : Option ℚ), (none : Option ℚ)), (1, true, none, none)]
    (by simp)
    (by simp [List.chain'_cons, List.chain'_singleton])
    0 2 (fun _ => (true, none, none))

/-! ## Session orchestrator (src/core/session.py) -/

/-- Mirrors `FaceMetrics` (src/core/landmarks.py); the raw landmark array is
never read by the session and is omitted. -/
structure FaceMetrics where
  face_present : Bool
  left_eye_ear : Option ℚ
  right_eye_ear : Option ℚ
deriving DecidableEq, Repr

/-- Mirrors the `SessionConfig` dataclass. -/
structure SessionConfig where
  detect_drowsiness : Bool
  detect_distraction : Bool
  target_duration_seconds : Option ℚ
deriving DecidableEq, Repr

/-- The dataclass defaults of `SessionConfig`. -/
def defaultSessionConfig : SessionConfig := ⟨true, true, none⟩

/-- Mirrors the `SessionStats` dataclass.  Wall-clock `datetime` values are
modelled by the caller-supplied timestamps. -/
structure SessionStats where
  start_time : ℚ
  end_time : ℚ
  duration_seconds : ℚ
  focused_seconds : ℚ
  drowsy_seconds : ℚ
  distracted_seconds : ℚ
  events : List FocusEvent
deriving DecidableEq, Repr

/-- Mutable state of `FocusSession` (its `__init__` fields).  The
`durations_by_state` dict is a total function on the five states. -/
structure FocusSession where
  config : SessionConfig
  state_machine : FocusStateMachine
  signal_processor : SignalProcessor
  start_time_wall : Option ℚ
  end_time_wall : Option ℚ
  start_time_mono : Option ℚ
  end_time_mono : Option ℚ
  last_timestamp : Option ℚ
  last_state : Option FocusState
  last_scores : Option SignalScores
  durations_by_state : FocusState → ℚ
  events : List FocusEvent

/-- `FocusSession.__init__` (with the two owned components freshly built, as
in the source). -/
def FocusSession.init (config : SessionConfig) (state_params : StateParams)
    (signal_config : SignalConfig) : FocusSession :=
  ⟨config, FocusStateMachine.init state_params, SignalProcessor.init signal_config,
    none, none, none, none, none, none, none, fun _ => 0, []⟩

/-- `FocusSession.start`.  `datetime.now()` and the `time.monotonic()`
fallback are modelled by the supplied timestamp; the Python method touches
only the fields written here (in particular neither owned component nor the
`end` timestamps). -/
def FocusSession.start (s : FocusSession) (timestamp : ℚ) : FocusSession :=
  { s with
    start_time_wall := some timestamp
    start_time_mono := some timestamp
    last_timestamp := none
    last_state := some s.state_machine.state
    last_scores := none
    durations_by_state := fun _ => 0
    events := [] }

/-- `FocusSession._apply_detection_mask`. -/
def FocusSession.applyDetectionMask (s : FocusSession) (scores : SignalScores) :
    SignalScores :=
  ⟨if s.config.detect_drowsiness then scores.drowsiness_score else 0,
    if s.config.detect_distraction then scores.distraction_score else 0,
    scores.blink_rate_per_minute, scores.long_blink_count,
    scores.fraction_face_missing⟩

/-- `FocusSession.update`.  The `RuntimeError` raised on an unstarted session
is modelled as `.error` with the session returned unchanged (the Python
`raise` happens before any mutation). -/
def FocusSession.update (s : FocusSession) (timestamp : ℚ) (metrics : FaceMetrics) :
    FocusSession × Except String (FocusState × SignalScores × Option FocusEvent) :=
  match s.start_time_mono with
  | none => (s, .error "Session not started")
  | some _ =>
    let s1 : FocusSession :=
      match s.last_timestamp, s.last_state with
      | some lt, some ls =>
        { s with durations_by_state :=
            fun st =>
              if st = ls then s.durations_by_state st + max 0 (timestamp - lt)
              else s.durations_by_state st }
      | _, _ => s
    let pr := s1.signal_processor.update timestamp metrics.face_present
      metrics.left_eye_ear metrics.right_eye_ear
    let scores := s1.applyDetectionMask pr.2
    let mu := s1.state_machine.update timestamp scores
    let events2 :=
      match mu.2.2 with
      | some e => s1.events ++ [e]
      | none => s1.events
    ({ s1 with
        signal_processor := pr.1
        state_machine := mu.1
        events := events2
        last_timestamp := some timestamp
        last_state := some mu.2.1
        last_scores := some scores },
      .ok (mu.2.1, scores, mu.2.2))

/-- `FocusSession.end` (named `endSession`: `end` is reserved in Lean).  Like
`update`, the unstarted-session `RuntimeError` is modelled as `.error` with
the session unchanged. -/
def FocusSession.endSession (s : FocusSession) (timestamp : ℚ) :
    FocusSession × Except String Unit :=
  match s.start_time_mono with
  | none => (s, .error "Session not started")
  | some _ =>
    let s1 : FocusSession :=
      match s.last_timestamp, s.last_state with
      | some lt, some ls =>
        { s with durations_by_state :=
            fun st =>
              if st = ls then s.durations_by_state st + max 0 (timestamp - lt)
              else s.durations_by_state st }
      | _, _ => s
    ({ s1 with
        end_time_mono := some timestamp
        end_time_wall := some timestamp }, .ok ())

/-- `FocusSession.summary`. -/
def FocusSession.summary (s : FocusSession) : Except String SessionStats :=
  match s.start_time_wall, s.end_time_wall, s.start_time_mono, s.end_time_mono with
  | some sw, some ew, some sm, some em =>
    .ok ⟨sw, ew, max 0 (em - sm),
      s.durations_by_state .FOCUSED,
      s.durations_by_state .DROWSY_WARNING + s.durations_by_state .DROWSY_ALARM,
      s.durations_by_state .DISTRACTED_WARNING +
        s.durations_by_state .DISTRACTED_ALARM,
      s.events⟩
  | _, _, _, _ => .error "Session has not been fully completed"

/-- Drive the session over a list of `(timestamp, metrics)` ticks, keeping
only the session state. -/
def FocusSession.runUpdates (s : FocusSession) :
    List (ℚ × FaceMetrics) → FocusSession
  | [] => s
  | (t, m) :: rest => ((s.update t m).1).runUpdates rest

/-! ### Claims about the session lifecycle -/

/-- Metrics with both eyes open (ratio 0.3, above the 0.22 threshold). -/
def metricsOpen : FaceMetrics := ⟨true, some (3/10), some (3/10)⟩

/-- Metrics with both eyes closed (ratio 0.15, below the 0.22 threshold). -/
def metricsClosed : FaceMetrics := ⟨true, some (3/20), some (3/20)⟩

/-- Tick trace for the duration-accounting scenario: focused from 0 to 10
(two long blinks ending at 6.5 and 7.5 push the drowsiness score to 70, whose
warning dwell reaches 3 s exactly at t = 10), then drowsy from 10 to 15 (a
third long blink ending at 10.6 raises the score to 100 and the alarm fires
at t = 12.6); the session ends at 15. -/
def scenarioTicks : List (ℚ × FaceMetrics) :=
  [(0, metricsOpen), (6, metricsClosed), (13/2, metricsOpen),
    (33/5, metricsClosed), (7, metricsClosed), (15/2, metricsOpen),
    (17/2, metricsOpen), (19/2, metricsOpen), (10, metricsOpen),
    (101/10, metricsClosed), (53/5, metricsOpen), (58/5, metricsOpen),
    (63/5, metricsOpen), (14, metricsOpen)]

/-- The session of the duration-accounting scenario, after `end` at 15. -/
def scenarioSession : FocusSession :=
  ((((FocusSession.init defaultSessionConfig defaultStateParams
      defaultSignalConfig).start 0).runUpdates scenarioTicks).endSession 15).1

set_option maxRecDepth 100000 in
/-- C5: on every `update` and on `end` of a started session, the elapsed time
since the previous tick (clamped to be non-negative) is added to the duration
bucket of the state reported by the *previous* tick (`last_state`), all other
buckets unchanged — whatever state the current tick produces.  Consequently
the concrete scenario session that is focused for 10 s and then in the drowsy
branch for 5 s reports `focused_seconds = 10`, `drowsy_seconds = 5`,
`distracted_seconds = 0`, summing exactly to the 15 s duration. -/
theorem C5_duration_attribution (s : FocusSession) (t lt t0 : ℚ)
    (ls : FocusState) (m : FaceMetrics) (hst : s.start_time_mono = some t0)
    (hlt : s.last_timestamp = some lt) (hls : s.last_state = some ls) :
    ((s.update t m).1.durations_by_state ls =
        s.durations_by_state ls + max 0 (t - lt) ∧
      (∀ st, st ≠ ls →
        (s.update t m).1.durations_by_state st = s.durations_by_state st)) ∧
    ((s.endSession t).1.durations_by_state ls =
        s.durations_by_state ls + max 0 (t - lt) ∧
      (∀ st, st ≠ ls →
        (s.endSession t).1.durations_by_state st = s.durations_by_state st)) ∧
    (∃ st, scenarioSession.summary = .ok st ∧ st.focused_seconds = 10 ∧
      st.drowsy_seconds = 5 ∧ st.distracted_seconds = 0 ∧
      st.duration_seconds = 15 ∧
      st.focused_seconds + st.drowsy_seconds + st.distracted_seconds =
        st.duration_seconds) := by
  refine ⟨⟨?_, ?_⟩, ⟨?_, ?_⟩, ?_⟩
  · simp [FocusSession.update, hst, hlt, hls]
  · intro st hne
    simp [FocusSession.update, hst, hlt, hls, hne]
  · simp [FocusSession.endSession, hst, hlt, hls]
  · intro st hne
    simp [FocusSession.endSession, hst, hlt, hls, hne]
  · exact ⟨_, rfl, by with_unfolding_all rfl, by with_unfolding_all rfl,
      by with_unfolding_all rfl, by with_unfolding_all rfl,
      by with_unfolding_all rfl⟩

/-- A session started at 0 with one tick at 1 (so `last_timestamp = some 1`
and `last_state = some FOCUSED`). -/
def onceSession : FocusSession :=
  ((((FocusSession.init defaultSessionConfig defaultStateParams
      defaultSignalConfig).start 0).update 1 metricsOpen).1)

/-- Witness for C5 at `onceSession`: the next update at 3 adds 2 seconds to
the `FOCUSED` bucket and leaves the other buckets unchanged. -/
theorem C5_duration_attribution_witness :
    (onceSession.update 3 metricsOpen).1.durations_by_state FocusState.FOCUSED =
        onceSession.durations_by_state FocusState.FOCUSED + max 0 (3 - 1) ∧
      (∀ st, st ≠ FocusState.FOCUSED →
        (onceSession.update 3 metricsOpen).1.durations_by_state st =
          onceSession.durations_by_state st) :=
  (C5_duration_attribution onceSession 3 1 0 FocusState.FOCUSED metricsOpen
    rfl rfl (by with_unfolding_all rfl)).1

/-- C7: `update` and `end` on a session whose `start` was never called return
the `Session not started` precondition error with the session unchanged, and
`summary` on a session missing any of the four start/end stamps returns the
`Session has not been fully completed` precondition error. -/
theorem C7_lifecycle_preconditions (s : FocusSession) (t : ℚ) (m : FaceMetrics) :
    (s.start_time_mono = none →
      s.update t m = (s, Except.error "Session not started") ∧
      s.endSession t = (s, Except.error "Session not started")) ∧
    (s.start_time_wall = none ∨ s.end_time_wall = none ∨
        s.start_time_mono = none ∨ s.end_time_mono = none →
      s.summary = Except.error "Session has not been fully completed") := by
  constructor
  · intro h
    constructor
    · simp [FocusSession.update, h]
    · simp [FocusSession.endSession, h]
  · intro h
    cases h1 : s.start_time_wall <;> cases h2 : s.end_time_wall <;>
      cases h3 : s.start_time_mono <;> cases h4 : s.end_time_mono <;>
      simp_all [FocusSession.summary, h1, h2, h3, h4]

/-- Witness for C7: the freshly constructed session (never started) rejects
`update`, `end` and `summary`. -/
theorem C7_lifecycle_preconditions_witness :
    ((FocusSession.init defaultSessionConfig defaultStateParams
        defaultSignalConfig).update 0 metricsOpen =
      (FocusSession.init defaultSessionConfig defaultStateParams
        defaultSignalConfig, Except.error "Session not started") ∧
      (FocusSession.init defaultSessionConfig defaultStateParams
        defaultSignalConfig).endSession 0 =
      (FocusSession.init defaultSessionConfig defaultStateParams
        defaultSignalConfig, Except.error "Session not started")) ∧
    (FocusSession.init defaultSessionConfig defaultStateParams
        defaultSignalConfig).summary =
      Except.error "Session has not been fully completed" :=
  ⟨(C7_lifecycle_preconditions
      (FocusSession.init defaultSessionConfig defaultStateParams
        defaultSignalConfig) 0 metricsOpen).1 rfl,
    (C7_lifecycle_preconditions
      (FocusSession.init defaultSessionConfig defaultStateParams
        defaultSignalConfig) 0 metricsOpen).2 (Or.inl rfl)⟩

/-- A session that was started at 0, updated at 1 and ended at 2. -/
def endedSession : FocusSession :=
  (((((FocusSession.init defaultSessionConfig defaultStateParams
      defaultSignalConfig).start 0).update 1 metricsOpen).1).endSession 2).1

/-- Counterexample to C8 as stated: after `end` (the session's
`end_time_mono` is set), a further `update` is *not* rejected — it returns a
normal `.ok` tick result, because `update` only checks that `start` was
called. -/
theorem C8_update_after_end_counterexample :
    endedSession.end_time_mono = some 2 ∧
      ∃ v, (endedSession.update 3 metricsOpen).2 = Except.ok v := by
  exact ⟨rfl, ⟨_, rfl⟩⟩

/-- C8 (amended): `update` after `end` is processed as a normal tick rather
than rejected: `update` succeeds on every session whose `start_time_mono` is
set, whether or not `end` has been called; only a never-started session is
rejected. -/
theorem C8_update_after_end_processed (s : FocusSession) (t t0 : ℚ)
    (m : FaceMetrics) (h : s.start_time_mono = some t0) :
    ∃ v, (s.update t m).2 = Except.ok v := by
  simp only [FocusSession.update, h]
  exact ⟨_, rfl⟩

/-- Witness for the amended C8 at the concrete ended session. -/
theorem C8_update_after_end_processed_witness :
    ∃ v, (endedSession.update 3 metricsClosed).2 = Except.ok v :=
  C8_update_after_end_processed endedSession 3 0 metricsClosed rfl

/-- C10: `start` resets only the session's own accumulators (duration
buckets, event log, last tick data, start stamps): the owned
`FocusStateMachine` and `SignalProcessor` — window queues, dwell timers and
current state included — are left untouched, and the new `last_state` is
seeded from whatever state the machine is currently in, so a second `start`
on the same instance resumes from the previous run's machine state and
signal window. -/
theorem C10_start_frame (s : FocusSession) (t : ℚ) :
    (s.start t).state_machine = s.state_machine ∧
      (s.start t).signal_processor = s.signal_processor ∧
      (s.start t).config = s.config ∧
      (s.start t).end_time_wall = s.end_time_wall ∧
      (s.start t).end_time_mono = s.end_time_mono ∧
      (s.start t).durations_by_state = (fun _ => 0) ∧
      (s.start t).events = [] ∧
      (s.start t).last_timestamp = none ∧
      (s.start t).last_scores = none ∧
      (s.start t).last_state = some s.state_machine.state ∧
      (s.start t).start_time_mono = some t ∧
      (s.start t).start_time_wall = some t :=
  ⟨rfl, rfl, rfl, rfl, rfl, rfl, rfl, rfl, rfl, rfl, rfl, rfl⟩

end Wakeguard
